import Mathlib

/-!
Verification of the personal finance ledger (`main.py`).

The store is a single JSON file holding an array of objects.  We embed:
  * JSON scalar values (strings and numbers; Python floats are modelled as
    rationals),
  * a record as a Python dict, i.e. an association list from field names to
    values (insertion order preserved, matching `json.load`),
  * the file system state as `Option (List Record)`: `none` when the backing
    file does not exist, `some records` when it holds the array `records`,
  * each `DataControl` method as a state-passing function; a Python
    `KeyError` on `record[key]` is an `Except.error key`.
-/

/-- A JSON scalar stored in a record field: a string or a number. -/
inductive Value where
  | str (s : String)
  | num (q : ℚ)
  deriving DecidableEq

/-- A persisted record: a Python dict, as an association list from field
names to values. -/
abbrev Record := List (String × Value)

/-- Python `record[key]`: the value when the key is present, otherwise a
`KeyError` carrying the key. -/
def dictGet (record : Record) (key : String) : Except String Value :=
  match record.lookup key with
  | some v => .ok v
  | none => .error key

/-- `DataFormat.__init__`: date, category, amount, description. -/
structure DataFormat where
  date : String
  category : String
  amount : ℚ
  description : String

/-- `DataFormat.dictionary`: the dict with the four fixed keys. -/
def DataFormat.dictionary (d : DataFormat) : Record :=
  [("date", .str d.date), ("category", .str d.category),
   ("amount", .num d.amount), ("description", .str d.description)]

/-- The backing file: `none` = the file does not exist, `some records` =
the file holds the JSON array `records`. -/
abbrev FS := Option (List Record)

namespace DataControl

/-- `DataControl.read_file`: the stored array if the file exists, else `[]`. -/
def read_file (fs : FS) : List Record :=
  match fs with
  | some records => records
  | none => []

/-- `DataControl.save_records`: overwrite the file with `records`. -/
def save_records (_fs : FS) (records : List Record) : FS :=
  some records

/-- `DataControl.add_record`: read, append `record.dictionary()`, save. -/
def add_record (fs : FS) (record : DataFormat) : FS :=
  let records := read_file fs
  save_records fs (records ++ [record.dictionary])

/-- `DataControl.update_record`: replace position `index` when
`0 <= index < len(records)` and save, returning `True`; otherwise return
`False` without touching the file. -/
def update_record (fs : FS) (index : Int) (updated_record : DataFormat) :
    Bool × FS :=
  if 0 ≤ index ∧ index < ((read_file fs).length : Int) then
    (true,
      save_records fs ((read_file fs).set index.toNat updated_record.dictionary))
  else
    (false, fs)

/-- `all(record[key] == value for key, value in search_criteria.items())`:
short-circuits at the first mismatch, like Python's `all`; a missing key
raises `KeyError`. -/
def matchesAll (record : Record) : List (String × Value) → Except String Bool
  | [] => .ok true
  | (key, value) :: rest =>
    match dictGet record key with
    | .error e => .error e
    | .ok v => if v = value then matchesAll record rest else .ok false

/-- The loop of `search_records`: collect, in order, the records matching
every criterion; the first `KeyError` aborts the whole search. -/
def searchLoop (criteria : List (String × Value)) :
    List Record → Except String (List Record)
  | [] => .ok []
  | record :: records =>
    match matchesAll record criteria with
    | .error e => .error e
    | .ok m =>
      match searchLoop criteria records with
      | .error e => .error e
      | .ok rest => .ok (if m then record :: rest else rest)

/-- `DataControl.search_records`: reads the file and filters; performs no
write, so the file state comes back unchanged. -/
def search_records (fs : FS) (search_criteria : List (String × Value)) :
    Except String (List Record) × FS :=
  (searchLoop search_criteria (read_file fs), fs)

end DataControl

namespace Main

/-- `sum(record['amount'] for record in records if record['category'] == cat)`:
a missing key raises `KeyError`; a non-numeric amount makes `sum` raise
`TypeError`. -/
def sumByCategory (cat : String) : List Record → Except String ℚ
  | [] => .ok 0
  | record :: records =>
    match dictGet record "category" with
    | .error e => .error e
    | .ok c =>
      if c = .str cat then
        match dictGet record "amount" with
        | .error e => .error e
        | .ok (.num a) =>
          match sumByCategory cat records with
          | .error e => .error e
          | .ok s => .ok (a + s)
        | .ok (.str _) => .error "TypeError"
      else
        sumByCategory cat records

/-- `Main.display_balance`: recompute income, expenses and balance from a
fresh `read_file`. Returns the triple `(balance, income, expenses)` handed
to the UI. -/
def display_balance (fs : FS) : Except String (ℚ × ℚ × ℚ) :=
  match sumByCategory "Доход" (DataControl.read_file fs) with
  | .error e => .error e
  | .ok income =>
    match sumByCategory "Расход" (DataControl.read_file fs) with
    | .error e => .error e
    | .ok expenses => .ok (income - expenses, income, expenses)

end Main

/-! Specification-side definitions used to state the theorems. -/

/-- A record matches the criteria when every criterion key is mapped by the
record to exactly the criterion value. -/
def matchesSpec (criteria : List (String × Value)) (record : Record) : Bool :=
  criteria.all fun kv => record.lookup kv.1 = some kv.2

/-- The amount field of a record (0 when absent or non-numeric; only used
under well-formedness). -/
def amountOf (record : Record) : ℚ :=
  match record.lookup "amount" with
  | some (.num a) => a
  | _ => 0

/-- The record's category is exactly the string `cat`. -/
def hasCategory (cat : String) (record : Record) : Bool :=
  record.lookup "category" = some (.str cat)

/-- The sum, over the records of category `cat`, of their amounts. -/
def specSum (cat : String) (records : List Record) : ℚ :=
  ((records.filter (hasCategory cat)).map amountOf).sum

/-- A record the balance computation can process: it has a `category`
field and a numeric `amount` field. -/
def ledgerOk (record : Record) : Bool :=
  (record.lookup "category").isSome &&
    (match record.lookup "amount" with
     | some (.num _) => true
     | _ => false)

/-- Sample record from the spec's scenario: an income of 100. -/
def sampleIncome : Record :=
  DataFormat.dictionary ⟨"2024-01-01", "Доход", 100, "salary"⟩

/-- Sample record from the spec's scenario: an expense of 40. -/
def sampleExpense : Record :=
  DataFormat.dictionary ⟨"2024-01-02", "Расход", 40, "food"⟩

/-- Sample record with a category that is neither income nor expense. -/
def sampleOther : Record :=
  DataFormat.dictionary ⟨"2024-01-03", "Перевод", 7, "transfer"⟩

/-- Sample replacement record used for the update scenarios. -/
def wRec : DataFormat := ⟨"2024-02-01", "Расход", 5, "update"⟩

/-! Helper lemmas. -/

/-- When every criterion key is present in the record, `matchesAll` cannot
raise and computes the conjunction of the exact-equality checks. -/
theorem matchesAll_of_present (record : Record)
    (criteria : List (String × Value))
    (h : ∀ kv ∈ criteria, (record.lookup kv.1).isSome) :
    DataControl.matchesAll record criteria = .ok (matchesSpec criteria record) := by
  induction criteria with
  | nil => rfl
  | cons kv rest ih =>
    obtain ⟨k, v⟩ := kv
    obtain ⟨w, hw⟩ :=
      Option.isSome_iff_exists.mp (h (k, v) (List.mem_cons_self _ _))
    have hrest : ∀ kv ∈ rest, (record.lookup kv.1).isSome :=
      fun kv hkv => h kv (List.mem_cons_of_mem _ hkv)
    simp only [DataControl.matchesAll, dictGet, hw, matchesSpec, List.all_cons]
    by_cases hv : w = v
    · subst hv
      simp [ih hrest, matchesSpec, hw]
    · simp [hv, hw]

/-- When every criterion key is present in every record, the search loop
cannot raise and returns exactly the records matching all criteria. -/
theorem searchLoop_of_present (criteria : List (String × Value))
    (records : List Record)
    (h : ∀ r ∈ records, ∀ kv ∈ criteria, (r.lookup kv.1).isSome) :
    DataControl.searchLoop criteria records =
      .ok (records.filter (matchesSpec criteria)) := by
  induction records with
  | nil => rfl
  | cons r rs ih =>
    have hr := h r (List.mem_cons_self _ _)
    have hrs : ∀ x ∈ rs, ∀ kv ∈ criteria, (x.lookup kv.1).isSome :=
      fun x hx => h x (List.mem_cons_of_mem _ hx)
    simp [DataControl.searchLoop, matchesAll_of_present r criteria hr,
      ih hrs, List.filter_cons]

/-- `ledgerOk` unpacked: a category value exists and the amount is numeric. -/
theorem ledgerOk_iff (r : Record) :
    ledgerOk r = true ↔
      (∃ c, r.lookup "category" = some c) ∧
        ∃ a, r.lookup "amount" = some (.num a) := by
  unfold ledgerOk
  cases hcat : r.lookup "category" with
  | none => simp
  | some c =>
    cases ham : r.lookup "amount" with
    | none => simp
    | some v =>
      cases v with
      | str s => simp
      | num a => simp

/-- On well-formed records the balance loop cannot raise and computes the
sum of the amounts of the records of category `cat`. -/
theorem sumByCategory_of_ok (cat : String) (records : List Record)
    (h : ∀ r ∈ records, ledgerOk r = true) :
    Main.sumByCategory cat records = .ok (specSum cat records) := by
  induction records with
  | nil => rfl
  | cons r rs ih =>
    obtain ⟨⟨c, hc⟩, ⟨a, ha⟩⟩ :=
      (ledgerOk_iff r).mp (h r (List.mem_cons_self _ _))
    have hrs : ∀ x ∈ rs, ledgerOk x = true :=
      fun x hx => h x (List.mem_cons_of_mem _ hx)
    simp only [Main.sumByCategory, dictGet, hc, ha]
    by_cases hcat : c = .str cat
    · subst hcat
      simp [ih hrs, specSum, List.filter_cons, hasCategory, hc, amountOf, ha]
    · simp [hcat, ih hrs, specSum, List.filter_cons, hasCategory, hc]

/-- A record whose category is present but equals neither side's label is
skipped by the balance loop: deleting it changes nothing. -/
theorem sumByCategory_skip (cat : String) (pre post : List Record)
    (r : Record) (c : Value)
    (hc : r.lookup "category" = some c) (hne : c ≠ .str cat) :
    Main.sumByCategory cat (pre ++ r :: post) =
      Main.sumByCategory cat (pre ++ post) := by
  induction pre with
  | nil =>
    simp only [List.nil_append, Main.sumByCategory, dictGet, hc]
    rw [if_neg hne]
  | cons p ps ih =>
    have ih' : Main.sumByCategory cat (ps.append (r :: post)) =
        Main.sumByCategory cat (ps.append post) := ih
    simp only [List.cons_append, Main.sumByCategory]
    rw [ih']

/-! Theorems. -/

/-- C1: when every criteria key is present in each stored record's schema,
`search_records` returns exactly the subsequence of records for which every
criterion key maps to an equal field value (conjunction across all keys),
and with empty criteria it returns all stored records. -/
theorem C1_search_conjunction (fs : FS) (criteria : List (String × Value))
    (h : ∀ r ∈ DataControl.read_file fs, ∀ kv ∈ criteria,
      (r.lookup kv.1).isSome) :
    DataControl.search_records fs criteria =
      (.ok ((DataControl.read_file fs).filter (matchesSpec criteria)), fs) ∧
    DataControl.search_records fs [] =
      (.ok (DataControl.read_file fs), fs) := by
  constructor
  · unfold DataControl.search_records
    rw [searchLoop_of_present _ _ h]
  · unfold DataControl.search_records
    rw [searchLoop_of_present []
        (DataControl.read_file fs)
        (fun r _ kv hkv => absurd hkv (List.not_mem_nil _)),
      List.filter_eq_self.mpr (fun a _ => (rfl : matchesSpec [] a = true))]

/-- C1 witness: searching the spec's two-record store by category returns
exactly the matching subsequence; empty criteria return everything. -/
theorem C1_search_conjunction_witness :
    DataControl.search_records (some [sampleIncome, sampleExpense])
        [("category", .str "Доход")] =
      (.ok ((DataControl.read_file (some [sampleIncome, sampleExpense])).filter
          (matchesSpec [("category", .str "Доход")])),
        some [sampleIncome, sampleExpense]) ∧
    DataControl.search_records (some [sampleIncome, sampleExpense]) [] =
      (.ok (DataControl.read_file (some [sampleIncome, sampleExpense])),
        some [sampleIncome, sampleExpense]) :=
  C1_search_conjunction (some [sampleIncome, sampleExpense])
    [("category", .str "Доход")] (by decide)

/-- C4: updating at an in-range index returns `true` and persists a list of
the same length holding the new record at that index and the old record at
every other index. -/
theorem C4_update_in_range (fs : FS) (i : Int) (r : DataFormat)
    (h0 : 0 ≤ i) (h1 : i < ((DataControl.read_file fs).length : Int)) :
    (DataControl.update_record fs i r).1 = true ∧
    (DataControl.read_file (DataControl.update_record fs i r).2).length =
      (DataControl.read_file fs).length ∧
    (DataControl.read_file (DataControl.update_record fs i r).2)[i.toNat]? =
      some r.dictionary ∧
    ∀ j : Nat, j ≠ i.toNat →
      (DataControl.read_file (DataControl.update_record fs i r).2)[j]? =
        (DataControl.read_file fs)[j]? := by
  have hlt : i.toNat < (DataControl.read_file fs).length := by omega
  have hcond : 0 ≤ i ∧ i < ((DataControl.read_file fs).length : Int) := ⟨h0, h1⟩
  unfold DataControl.update_record
  rw [if_pos hcond]
  refine ⟨rfl, ?_, ?_, ?_⟩
  · exact List.length_set ..
  · exact List.getElem?_set_eq_of_lt _ hlt
  · intro j hj
    exact List.getElem?_set_ne (fun hij => hj hij.symm)

/-- C4 witness: updating index 0 of the two-record store succeeds, keeps
the length, stores the new record at 0 and leaves index 1 unchanged. -/
theorem C4_update_in_range_witness :
    (DataControl.update_record (some [sampleIncome, sampleExpense]) 0 wRec).1 =
      true ∧
    (DataControl.read_file
        (DataControl.update_record (some [sampleIncome, sampleExpense]) 0
          wRec).2).length =
      (DataControl.read_file (some [sampleIncome, sampleExpense])).length ∧
    (DataControl.read_file
        (DataControl.update_record (some [sampleIncome, sampleExpense]) 0
          wRec).2)[0]? = some wRec.dictionary ∧
    (DataControl.read_file
        (DataControl.update_record (some [sampleIncome, sampleExpense]) 0
          wRec).2)[1]? =
      (DataControl.read_file (some [sampleIncome, sampleExpense]))[1]? := by
  have h := C4_update_in_range (some [sampleIncome, sampleExpense]) 0 wRec
    (by decide) (by decide)
  exact ⟨h.1, h.2.1, h.2.2.1, h.2.2.2 1 (by decide)⟩

/-- C5: updating at an out-of-range index (negative included) returns
`false`, raises nothing, and leaves the store unchanged. -/
theorem C5_update_out_of_range (fs : FS) (i : Int) (r : DataFormat)
    (h : i < 0 ∨ ((DataControl.read_file fs).length : Int) ≤ i) :
    DataControl.update_record fs i r = (false, fs) ∧
    DataControl.read_file (DataControl.update_record fs i r).2 =
      DataControl.read_file fs := by
  have hcond : ¬(0 ≤ i ∧ i < ((DataControl.read_file fs).length : Int)) := by
    omega
  unfold DataControl.update_record
  rw [if_neg hcond]
  exact ⟨rfl, rfl⟩

/-- C5 witness: the spec's scenario — `update(5, ...)` on a 2-record store
fails and the store still holds the original records. -/
theorem C5_update_out_of_range_witness :
    DataControl.update_record (some [sampleIncome, sampleExpense]) 5 wRec =
      (false, some [sampleIncome, sampleExpense]) ∧
    DataControl.read_file
        (DataControl.update_record (some [sampleIncome, sampleExpense]) 5
          wRec).2 =
      DataControl.read_file (some [sampleIncome, sampleExpense]) :=
  C5_update_out_of_range (some [sampleIncome, sampleExpense]) 5 wRec
    (by decide)

/-- C6: on a store of well-formed records the balance computation, run on a
fresh load, reports income = sum of income amounts, expenses = sum of
expense amounts, balance = income - expenses; on the missing (empty) store
it reports all zeros. -/
theorem C6_balance (fs : FS)
    (h : ∀ r ∈ DataControl.read_file fs, ledgerOk r = true) :
    Main.display_balance fs =
      .ok (specSum "Доход" (DataControl.read_file fs) -
             specSum "Расход" (DataControl.read_file fs),
           specSum "Доход" (DataControl.read_file fs),
           specSum "Расход" (DataControl.read_file fs)) ∧
    Main.display_balance none = .ok (0, 0, 0) := by
  constructor
  · unfold Main.display_balance
    rw [sumByCategory_of_ok _ _ h, sumByCategory_of_ok _ _ h]
  · show Except.ok ((0 : ℚ) - 0, (0 : ℚ), (0 : ℚ)) = Except.ok (0, 0, 0)
    norm_num

/-- C6 witness at the spec's scenario store (income 100, expense 40). -/
theorem C6_balance_witness :
    Main.display_balance (some [sampleIncome, sampleExpense]) =
      .ok (specSum "Доход"
             (DataControl.read_file (some [sampleIncome, sampleExpense])) -
           specSum "Расход"
             (DataControl.read_file (some [sampleIncome, sampleExpense])),
           specSum "Доход"
             (DataControl.read_file (some [sampleIncome, sampleExpense])),
           specSum "Расход"
             (DataControl.read_file (some [sampleIncome, sampleExpense]))) ∧
    Main.display_balance none = .ok (0, 0, 0) :=
  C6_balance (some [sampleIncome, sampleExpense]) (by decide)

/-- C9: a record whose category is neither the income label nor the expense
label contributes to neither sum: the balance output over a store containing
it equals the output over the store with it removed — it is silently
ignored, not rejected. -/
theorem C9_other_category_ignored (pre post : List Record) (r : Record)
    (c : Value) (hc : r.lookup "category" = some c)
    (h1 : c ≠ .str "Доход") (h2 : c ≠ .str "Расход") :
    Main.display_balance (some (pre ++ r :: post)) =
      Main.display_balance (some (pre ++ post)) := by
  unfold Main.display_balance
  simp only [DataControl.read_file]
  rw [sumByCategory_skip _ _ _ _ _ hc h1,
    sumByCategory_skip _ _ _ _ _ hc h2]

/-- C9 witness: inserting a "Перевод" record between the income and the
expense record leaves the balance output unchanged. -/
theorem C9_other_category_ignored_witness :
    Main.display_balance
        (some ([sampleIncome] ++ sampleOther :: [sampleExpense])) =
      Main.display_balance (some ([sampleIncome] ++ [sampleExpense])) :=
  C9_other_category_ignored [sampleIncome] [sampleExpense] sampleOther
    (.str "Перевод") (by decide) (by decide) (by decide)


/-- C2: saving any record sequence `R` and then loading returns `R`
unchanged (round-trip identity). -/
theorem C2_save_load_roundtrip (fs : FS) (R : List Record) :
    DataControl.read_file (DataControl.save_records fs R) = R := rfl

/-- C2 witness at the spec's two-record scenario. -/
theorem C2_save_load_roundtrip_witness :
    DataControl.read_file
        (DataControl.save_records none [sampleIncome, sampleExpense]) =
      [sampleIncome, sampleExpense] :=
  C2_save_load_roundtrip none [sampleIncome, sampleExpense]

/-- C3: appending `r` to a store holding `R` leaves the store holding
`R ++ [r.dictionary()]`, and `add_record` is exactly
`save_records (read_file fs ++ [r.dictionary()])`. -/
theorem C3_append (fs : FS) (r : DataFormat) :
    DataControl.read_file (DataControl.add_record fs r) =
      DataControl.read_file fs ++ [r.dictionary] ∧
    DataControl.add_record fs r =
      DataControl.save_records fs (DataControl.read_file fs ++ [r.dictionary]) :=
  ⟨rfl, rfl⟩

/-- C7: when the backing file does not exist, loading returns the empty
sequence rather than failing. -/
theorem C7_missing_store : DataControl.read_file none = [] := rfl

/-- C8: on a store with one record, searching on a key absent from the
record's schema fails with a lookup error naming the key; no result
sequence is produced. -/
theorem C8_absent_key_error :
    DataControl.search_records (some [sampleIncome]) [("missing", .str "x")] =
      (.error "missing", some [sampleIncome]) := rfl

/-- C10: searching never modifies the store: the file state after
`search_records` is exactly the state before, so a load after the search
returns the same sequence as a load before it. -/
theorem C10_search_pure (fs : FS) (criteria : List (String × Value)) :
    (DataControl.search_records fs criteria).2 = fs ∧
    DataControl.read_file (DataControl.search_records fs criteria).2 =
      DataControl.read_file fs :=
  ⟨rfl, rfl⟩
